import Mathlib

/-!
Verification development for the bot-vinted-jules repository.

The two source files, `backend/vinted_fetcher.py` and `backend/vinted_routes.py`,
are shallowly embedded below.  Python dynamic values are modelled by `PyVal`,
numbers by exact rationals, fallible Python code (code that can raise) by
`Except String`, and the external world of one fetch invocation (HTTP status,
what each embedded-data extraction finds, the clock hour, the random generator)
by an explicit `FetchWorld` record that the pipeline function consumes.
-/

namespace Vinted

/-- A Python value, as far as the repository manipulates them: `None`, booleans,
integers, floats (modelled as exact rationals), strings, lists and
string-keyed dictionaries. -/
inductive PyVal where
  | none : PyVal
  | bool : Bool → PyVal
  | int : Int → PyVal
  | float : ℚ → PyVal
  | str : String → PyVal
  | list : List PyVal → PyVal
  | dict : List (String × PyVal) → PyVal

/-- Models `d.get(key, dflt)` on a Python dict (first binding of the key wins). -/
def dictGet (fields : List (String × PyVal)) (key : String) (dflt : PyVal) : PyVal :=
  match fields.find? (fun kv => kv.1 == key) with
  | some kv => kv.2
  | _ => dflt

/-- Python truthiness of a value (`bool(v)`). -/
def truthy : PyVal → Bool
  | .none => false
  | .bool b => b
  | .int n => n != 0
  | .float q => q != 0
  | .str s => s != ""
  | .list xs => !xs.isEmpty
  | .dict fs => !fs.isEmpty

/-- Models Python `x or y`: `x` when truthy, else `y`. -/
def pyOr (x y : PyVal) : PyVal := if truthy x then x else y

/-- Little-endian decimal digits, with explicit fuel so the definition is
structurally recursive (the fuel is an upper bound on the digit count). -/
def natDigitsF : Nat → Nat → List Nat
  | 0, _ => []
  | f + 1, n => if n = 0 then [] else n % 10 :: natDigitsF f (n / 10)

/-- Little-endian decimal digits of a natural number (empty for 0). -/
def natDigits (n : Nat) : List Nat := natDigitsF n n

/-- Decimal representation of a natural number, as Python `str(n)` prints it. -/
def natRepr (n : Nat) : String :=
  if n = 0 then "0" else String.mk ((natDigits n).reverse.map fun d => Char.ofNat (48 + d))

/-- Value of a little-endian decimal digit list; used to invert `natDigits`. -/
def digitsLEVal (ds : List Nat) : Nat := ds.foldr (fun d acc => d + 10 * acc) 0

/-- Decimal representation of an integer, as Python `str(n)` prints it. -/
def intRepr (n : Int) : String :=
  if n < 0 then "-" ++ natRepr n.natAbs else natRepr n.natAbs

/-- Left-pads a string with `'0'` up to length `k`. -/
def padLeftZeros (s : String) (k : Nat) : String :=
  String.mk (List.replicate (k - s.length) '0') ++ s

/-- Decimal rendering of a rational that is a Python float, as `repr`/`str`
print it (`15.5`, `1.0`, `-0.5`).  Rationals whose denominator divides no power
of ten up to `10 ^ 30` (unreachable from actual Python floats in this
repository) fall back to a fraction rendering. -/
def floatRepr (q : ℚ) : String :=
  match (List.range 31).find? (fun k => (q * (10 : ℚ) ^ k).den == 1) with
  | some k =>
      let n := (q * (10 : ℚ) ^ k).num
      let sgnStr := if n < 0 then "-" else ""
      let m := n.natAbs
      if k = 0 then sgnStr ++ natRepr m ++ ".0"
      else sgnStr ++ natRepr (m / 10 ^ k) ++ "." ++ padLeftZeros (natRepr (m % 10 ^ k)) k
  | _ => intRepr q.num ++ "/" ++ natRepr q.den

/-- Models Python `repr(v)` (containers recurse; strings get quotes). -/
def pyRepr (v : PyVal) : String :=
  match v with
  | .none => "None"
  | .bool b => if b then "True" else "False"
  | .int n => intRepr n
  | .float q => floatRepr q
  | .str s => "\x27" ++ s ++ "\x27"
  | .list xs => "[" ++ String.intercalate ", " (xs.attach.map fun x => pyRepr x.1) ++ "]"
  | .dict fs =>
      "\x7b" ++
        String.intercalate ", "
          (fs.attach.map fun kv => "\x27" ++ kv.1.1 ++ "\x27: " ++ pyRepr kv.1.2) ++
      "\x7d"
termination_by sizeOf v
decreasing_by
  all_goals first
  | (have h1 := List.sizeOf_lt_of_mem x.2
     simp only [PyVal.list.sizeOf_spec]
     omega)
  | (have h1 := List.sizeOf_lt_of_mem kv.2
     have h2 : sizeOf kv.1.2 < sizeOf kv.1 := by
       obtain ⟨a, b⟩ := kv.1
       simp [Prod.mk.sizeOf_spec]
     simp only [PyVal.dict.sizeOf_spec]
     omega)

/-- Models Python `str(v)`: like `repr` except top-level strings are unquoted. -/
def pyStr (v : PyVal) : String :=
  match v with
  | .str s => s
  | v => pyRepr v

/-- Python whitespace test, for the stripping `float(str)` performs. -/
def isPySpace (c : Char) : Bool :=
  c == ' ' || c == '\t' || c == '\n' || c == '\r' || c == '\x0b' || c == '\x0c'

/-- Strips leading and trailing whitespace from a character list. -/
def stripChars (cs : List Char) : List Char :=
  ((cs.dropWhile isPySpace).reverse.dropWhile isPySpace).reverse

/-- Value of a big-endian list of ASCII digit characters. -/
def digitsVal (ds : List Char) : Nat :=
  ds.foldl (fun a c => 10 * a + (c.toNat - 48)) 0

/-- Parses the exponent part of a float literal (`[+-]? digits`). -/
def parseExp (cs : List Char) : Option Int :=
  match cs with
  | [] => Option.none
  | c :: rest =>
      let p : Int × List Char :=
        if c = '-' then (-1, rest) else if c = '+' then (1, rest) else (1, c :: rest)
      if !p.2.isEmpty && p.2.all Char.isDigit then some (p.1 * digitsVal p.2)
      else Option.none

/-- The unsigned part of a float literal: digits with at most one dot (at
least one digit), then an optional exponent. -/
def parseUnsigned (cs : List Char) : Option ℚ :=
  let ip := cs.takeWhile Char.isDigit
  let rest1 := cs.dropWhile Char.isDigit
  let fr : List Char × List Char :=
    match rest1 with
    | '.' :: r => (r.takeWhile Char.isDigit, r.dropWhile Char.isDigit)
    | _ => ([], rest1)
  let hasDot : Bool := match rest1 with | '.' :: _ => true | _ => false
  if ip.isEmpty && (!hasDot || fr.1.isEmpty) then Option.none
  else
    let mant : ℚ := (digitsVal ip : ℚ) + (digitsVal fr.1 : ℚ) / (10 : ℚ) ^ fr.1.length
    match fr.2 with
    | [] => some mant
    | e :: r =>
        if e = 'e' ∨ e = 'E' then
          match parseExp r with
          | some k => some (mant * (10 : ℚ) ^ k)
          | _ => Option.none
        else Option.none

/-- Models CPython `float(str)` on finite decimal literals:
optional surrounding whitespace, optional sign, digits with at most one dot
(at least one digit), optional exponent.  (`inf`, `nan` and underscore
separators are not modelled; no input reachable in this repository uses them.)
Returns `none` where `float()` raises `ValueError`. -/
def parseFloatChars (cs0 : List Char) : Option ℚ :=
  match stripChars cs0 with
  | '-' :: rest => (parseUnsigned rest).map fun m => -m
  | '+' :: rest => parseUnsigned rest
  | cs1 => parseUnsigned cs1

/-- Models Python `float(v)` on a value: numbers and booleans convert, strings
go through the literal parser, everything else raises (`none`). -/
def pyFloat : PyVal → Option ℚ
  | .int n => some n
  | .float q => some q
  | .bool b => some (if b then 1 else 0)
  | .str s => parseFloatChars s.data
  | _ => Option.none

/-- Character class of the price regex `[\d,\.]` in `parse_item`
(ASCII digits modelled; the claims use none of the non-ASCII digits `\d`
additionally matches). -/
def isPriceChar (c : Char) : Bool := c.isDigit || c == ',' || c == '.'

/-- Models `price_data.replace(',', '.')`: both arguments are single
characters, so the replacement is a character-wise map. -/
def commaToDot (s : String) : String :=
  String.mk (s.data.map fun c => if c = ',' then '.' else c)

/-- Models `re.search(r'([\d,\.]+)', s)`: the first maximal run of price
characters, or `none` when the pattern does not match. -/
def firstNumRun (s : String) : Option (List Char) :=
  match s.data.dropWhile (fun c => !isPriceChar c) with
  | [] => Option.none
  | c :: rest => some (c :: rest.takeWhile isPriceChar)

/-- The price/currency extraction of `parse_item`
(`backend/vinted_fetcher.py` lines 233-245).  Returns the pair assigned to
`price` and `currency`, or an error where the Python code raises from a
failing `float(...)` call. -/
def parse_price (price_data : PyVal) : Except String (PyVal × PyVal) :=
  match price_data with
  | .dict d =>
      match pyFloat (dictGet d "amount" (.int 0)) with
      | some q => .ok (.float q, dictGet d "currency_code" (.str "EUR"))
      | _ => .error "ValueError: float() on price amount"
  | .str s =>
      match firstNumRun (commaToDot s) with
      | some run =>
          match parseFloatChars run with
          | some q => .ok (.float q, .str "EUR")
          | _ => .error "ValueError: float() on price match"
      | _ => .ok (.int 0, .str "EUR")
  | v =>
      if truthy v then
        match pyFloat v with
        | some q => .ok (.float q, .str "EUR")
        | _ => .error "TypeError: float() on price value"
      else .ok (.int 0, .str "EUR")

/-- The normalized item record built by `parse_item`.  Fields the Python code
never coerces stay `PyVal`; `item_id` and `photo_url` are coerced the way the
code coerces them. -/
structure ParsedItem where
  item_id : String
  title : PyVal
  price : PyVal
  currency : PyVal
  brand : PyVal
  size : PyVal
  url : PyVal
  photo_url : PyVal
  is_mock : PyVal
  raw_json : PyVal

/-- Embedding of `parse_item` (`backend/vinted_fetcher.py` lines 228-270).
An `Except.error` marks the inputs on which the Python function raises. -/
def parse_item (raw : List (String × PyVal)) : Except String ParsedItem :=
  match parse_price (dictGet raw "price" (.int 0)) with
  | .error e => .error e
  | .ok pc =>
      let idv := pyOr (dictGet raw "id" .none) (pyOr (dictGet raw "item_id" .none) (.str ""))
      let url0 := dictGet raw "url" (.str "")
      let url :=
        if truthy url0 = false && truthy idv then
          PyVal.str ("https://www.vinted.fr/items/" ++ pyStr idv)
        else url0
      let photo := dictGet raw "photo" (.dict [])
      let photo_url :=
        match photo with
        | .dict d => dictGet d "url" (.str "")
        | v => .str (pyStr v)
      .ok
        { item_id := pyStr idv
          title := dictGet raw "title" (.str "")
          price := pc.1
          currency := pc.2
          brand := pyOr (dictGet raw "brand_title" (.str "")) (dictGet raw "brand" (.str ""))
          size := pyOr (dictGet raw "size_title" (.str "")) (dictGet raw "size" (.str ""))
          url := url
          photo_url := photo_url
          is_mock := dictGet raw "_mock" (.bool false)
          raw_json := .dict raw }

/-- Numeric value of a `PyVal` that holds a number (0 otherwise); used to state
properties of the normalized `price`. -/
def pyNumVal : PyVal → ℚ
  | .int n => n
  | .float q => q
  | .bool b => if b then 1 else 0
  | _ => 0

/-- The `price` field of a parse result, when parsing succeeded. -/
def priceOf (r : Except String ParsedItem) : Option PyVal :=
  match r with
  | .ok p => some p.price
  | _ => Option.none

/-- The `currency` field of a parse result, when parsing succeeded. -/
def currencyOf (r : Except String ParsedItem) : Option PyVal :=
  match r with
  | .ok p => some p.currency
  | _ => Option.none

/-! ### MD5 (RFC 1321), as used by `hashlib.md5(...).hexdigest()` -/

/-- Reduction modulo `2 ^ 32`, the word size of MD5 arithmetic. -/
def w32 (n : Nat) : Nat := n % 4294967296

/-- 32-bit left rotation of a word `x < 2 ^ 32` by `s` bits. -/
def leftrot (x s : Nat) : Nat := w32 (x * 2 ^ s) + x / 2 ^ (32 - s)

/-- The 64 MD5 sine-derived round constants. -/
def md5K : List Nat :=
  [0xd76aa478, 0xe8c7b756, 0x242070db, 0xc1bdceee,
   0xf57c0faf, 0x4787c62a, 0xa8304613, 0xfd469501,
   0x698098d8, 0x8b44f7af, 0xffff5bb1, 0x895cd7be,
   0x6b901122, 0xfd987193, 0xa679438e, 0x49b40821,
   0xf61e2562, 0xc040b340, 0x265e5a51, 0xe9b6c7aa,
   0xd62f105d, 0x02441453, 0xd8a1e681, 0xe7d3fbc8,
   0x21e1cde6, 0xc33707d6, 0xf4d50d87, 0x455a14ed,
   0xa9e3e905, 0xfcefa3f8, 0x676f02d9, 0x8d2a4c8a,
   0xfffa3942, 0x8771f681, 0x6d9d6122, 0xfde5380c,
   0xa4beea44, 0x4bdecfa9, 0xf6bb4b60, 0xbebfbc70,
   0x289b7ec6, 0xeaa127fa, 0xd4ef3085, 0x04881d05,
   0xd9d4d039, 0xe6db99e5, 0x1fa27cf8, 0xc4ac5665,
   0xf4292244, 0x432aff97, 0xab9423a7, 0xfc93a039,
   0x655b59c3, 0x8f0ccc92, 0xffeff47d, 0x85845dd1,
   0x6fa87e4f, 0xfe2ce6e0, 0xa3014314, 0x4e0811a1,
   0xf7537e82, 0xbd3af235, 0x2ad7d2bb, 0xeb86d391]

/-- The 64 MD5 per-round shift amounts. -/
def md5S : List Nat :=
  [7, 12, 17, 22, 7, 12, 17, 22, 7, 12, 17, 22, 7, 12, 17, 22,
   5, 9, 14, 20, 5, 9, 14, 20, 5, 9, 14, 20, 5, 9, 14, 20,
   4, 11, 16, 23, 4, 11, 16, 23, 4, 11, 16, 23, 4, 11, 16, 23,
   6, 10, 15, 21, 6, 10, 15, 21, 6, 10, 15, 21, 6, 10, 15, 21]

/-- One MD5 round: state `(a, b, c, d)`, message words `M`, round index `i`. -/
def md5Round (M : List Nat) (st : Nat × Nat × Nat × Nat) (i : Nat) : Nat × Nat × Nat × Nat :=
  let a := st.1
  let b := st.2.1
  let c := st.2.2.1
  let d := st.2.2.2
  let f :=
    if i < 16 then (b &&& c) ||| ((4294967295 - b) &&& d)
    else if i < 32 then (d &&& b) ||| ((4294967295 - d) &&& c)
    else if i < 48 then b ^^^ c ^^^ d
    else c ^^^ (b ||| (4294967295 - d))
  let g :=
    if i < 16 then i
    else if i < 32 then (5 * i + 1) % 16
    else if i < 48 then (3 * i + 5) % 16
    else (7 * i) % 16
  let tmp := w32 (f + a + md5K.getD i 0 + M.getD g 0)
  (d, w32 (b + leftrot tmp (md5S.getD i 0)), b, c)

/-- Processes one 16-word block, adding the round output to the incoming state. -/
def md5Block (st : Nat × Nat × Nat × Nat) (M : List Nat) : Nat × Nat × Nat × Nat :=
  let r := (List.range 64).foldl (md5Round M) st
  (w32 (st.1 + r.1), w32 (st.2.1 + r.2.1), w32 (st.2.2.1 + r.2.2.1), w32 (st.2.2.2 + r.2.2.2))

/-- MD5 padding: `0x80`, zeros to 56 mod 64, then the 64-bit little-endian bit
length of the original message. -/
def md5Pad (msg : List Nat) : List Nat :=
  let len := msg.length
  let zeros := (119 - len % 64) % 64
  msg ++ [128] ++ List.replicate zeros 0 ++
    ((List.range 8).map fun j => len * 8 / 2 ^ (8 * j) % 256)

/-- Splits a byte list into 64-byte blocks; the fuel (at least the list
length) keeps the recursion structural. -/
def chunks64F : Nat → List Nat → List (List Nat)
  | 0, _ => []
  | _, [] => []
  | f + 1, x :: xs => (x :: xs).take 64 :: chunks64F f ((x :: xs).drop 64)

/-- Splits a byte list into 64-byte blocks. -/
def chunks64 (l : List Nat) : List (List Nat) := chunks64F l.length l

/-- The 16 little-endian 32-bit words of one 64-byte block. -/
def blockWords (blk : List Nat) : List Nat :=
  (List.range 16).map fun j =>
    blk.getD (4 * j) 0 + 256 * blk.getD (4 * j + 1) 0 +
      65536 * blk.getD (4 * j + 2) 0 + 16777216 * blk.getD (4 * j + 3) 0

/-- The MD5 initial state. -/
def md5Init : Nat × Nat × Nat × Nat := (0x67452301, 0xefcdab89, 0x98badcfe, 0x10325476)

/-- The final MD5 state over a byte message. -/
def md5State (msg : List Nat) : Nat × Nat × Nat × Nat :=
  (chunks64 (md5Pad msg)).foldl (fun st blk => md5Block st (blockWords blk)) md5Init

/-- The four little-endian bytes of a 32-bit word. -/
def wordBytes (w : Nat) : List Nat :=
  [w % 256, w / 256 % 256, w / 65536 % 256, w / 16777216 % 256]

/-- The 16-byte MD5 digest of a byte message. -/
def md5DigestBytes (msg : List Nat) : List Nat :=
  wordBytes (md5State msg).1 ++ wordBytes (md5State msg).2.1 ++
    wordBytes (md5State msg).2.2.1 ++ wordBytes (md5State msg).2.2.2

/-- Lowercase hexadecimal digit character. -/
def hexDigit (n : Nat) : Char := if n < 10 then Char.ofNat (48 + n) else Char.ofNat (87 + n)

/-- Two lowercase hex characters per byte, concatenated. -/
def bytesHexChars (bs : List Nat) : List Char :=
  bs.foldr (fun b acc => hexDigit (b / 16 % 16) :: hexDigit (b % 16) :: acc) []

/-- UTF-8 encoding of one character, as Python `str.encode()` produces it. -/
def utf8Bytes (c : Char) : List Nat :=
  let n := c.toNat
  if n < 128 then [n]
  else if n < 2048 then [192 + n / 64, 128 + n % 64]
  else if n < 65536 then [224 + n / 4096, 128 + n / 64 % 64, 128 + n % 64]
  else [240 + n / 262144, 128 + n / 4096 % 64, 128 + n / 64 % 64, 128 + n % 64]

/-- UTF-8 bytes of a string (`s.encode()` in Python). -/
def strBytes (s : String) : List Nat := (s.data.map utf8Bytes).flatten

/-- Models `hashlib.md5(s.encode()).hexdigest()`. -/
def md5Hex (s : String) : String := String.mk (bytesHexChars (md5DigestBytes (strBytes s)))

/-- Models Python string slicing `s[:n]` (first `n` characters). -/
def strTake (s : String) (n : Nat) : String := String.mk (s.data.take n)

/-! ### `generate_mock_items` (`backend/vinted_fetcher.py` lines 196-225) -/

/-- The f-string `f"{search_text}_{i}_{time.time()//3600}"` hashed for a mock
item id.  `time.time()//3600` is a float with integral value, printed with a
trailing `.0`; the clock hour is the explicit `hour` argument (valid for hours
below `10 ^ 16`, past which float repr switches to exponent form). -/
def mockHashInput (search_text : String) (i hour : Nat) : String :=
  search_text ++ "_" ++ natRepr i ++ "_" ++ natRepr hour ++ ".0"

/-- The 8-character identifier hash of mock item `i`:
`hashlib.md5(...).hexdigest()[:8]`. -/
def mockItemId (search_text : String) (i hour : Nat) : String :=
  strTake (md5Hex (mockHashInput search_text i hour)) 8

/-- The `id` fields of a mock generation: `"mock_" + hash`. -/
def mockIdList (search_text : String) (count hour : Nat) : List String :=
  (List.range count).map fun i => "mock_" ++ mockItemId search_text i hour

/-- The vocabularies `base_prices`, `brands`, `sizes` of `generate_mock_items`. -/
def mockBasePrices : List Int := [15, 25, 35, 45, 55, 65, 75, 85, 95, 105]

/-- Brand vocabulary of the mock generator. -/
def mockBrands : List String :=
  ["Nike", "Adidas", "Puma", "Reebok", "New Balance", "Asics", "Vans", "Converse"]

/-- Size vocabulary of the mock generator. -/
def mockSizes : List String := ["S", "M", "L", "XL", "36", "38", "40", "42", "44"]

/-- Oracle for the `random.choice` / `random.randint` draws of
`generate_mock_items`; each field gives the draw made at item index `i`
(indices are reduced modulo the vocabulary size, offsets land in `[-5, 5]`,
exactly the ranges the Python calls produce). -/
structure MockRng where
  priceIdx : Nat → Nat
  offset : Nat → Nat
  brandIdx : Nat → Nat
  sizeIdx : Nat → Nat

/-- Embedding of `generate_mock_items`: `count` synthetic raw items whose ids
are derived from the search text, index and clock hour, with price, brand and
size drawn from the fixed vocabularies through the random oracle. -/
def generate_mock_items (search_text : String) (count hour : Nat) (rng : MockRng) :
    List PyVal :=
  (List.range count).map fun i =>
    let iid := mockItemId search_text i hour
    PyVal.dict
      [("id", .str ("mock_" ++ iid)),
       ("title", .str ((if search_text = "" then "Item" else search_text) ++
          " - Sample #" ++ natRepr (i + 1))),
       ("price", .dict
          [("amount", .int (mockBasePrices.getD (rng.priceIdx i % 10) 15 +
             ((rng.offset i % 11 : Int) - 5))),
           ("currency_code", .str "EUR")]),
       ("brand_title", .str (mockBrands.getD (rng.brandIdx i % 8) "Nike")),
       ("size_title", .str (mockSizes.getD (rng.sizeIdx i % 9) "S")),
       ("url", .str ("https://www.vinted.fr/items/mock_" ++ iid)),
       ("photo", .dict [("url", .str "")]),
       ("_mock", .bool true)]

/-! ### `fetch_vinted_items` (`backend/vinted_fetcher.py` lines 43-193) -/

/-- What one embedded-data extraction attempt finds in the fetched page:
nothing, a blob whose JSON decoding fails, or a decoded item list.  The HTTP
client, the regex engine and the JSON decoder are external collaborators, so
their outcome is world data, not computed here. -/
inductive ExtractOutcome where
  | absent : ExtractOutcome
  | decodeErr : ExtractOutcome
  | found : List PyVal → ExtractOutcome

/-- The external world of one `fetch_vinted_items` invocation: whether the
request itself raises, the HTTP status, what the `__NEXT_DATA__` extraction and
the three preload-state regex patterns find, what the BeautifulSoup pass
collects, and the clock hour plus random draws the mock fallback would use. -/
structure FetchWorld where
  requestError : Option String
  status : Nat
  nextData : ExtractOutcome
  preload1 : ExtractOutcome
  preload2 : ExtractOutcome
  preload3 : ExtractOutcome
  soupItems : List PyVal
  hour : Nat
  rng : MockRng

/-- Result of a `fetch_vinted_items` call: the Python function returns a bare
list on some paths and a provenance-tagged dict on others. -/
inductive FetchOutcome where
  | bare : List PyVal → FetchOutcome
  | tagged : List PyVal → String → Bool → Option String → FetchOutcome

/-- Whether a preload pattern yields a usable (non-empty) item list. -/
def yields : ExtractOutcome → Bool
  | .found l => !l.isEmpty
  | _ => false

/-- The tagged live result a yielding preload pattern produces. -/
def preloadResult (o : ExtractOutcome) (per_page : Nat) : Option FetchOutcome :=
  match o with
  | .found l => if l.isEmpty then Option.none
      else some (.tagged (l.take per_page) "live" false Option.none)
  | _ => Option.none

/-- The mock fallback result shared by the no-items and the exception paths. -/
def mockResult (w : FetchWorld) (search_text : String) (per_page : Nat)
    (reason : String) : FetchOutcome :=
  .tagged (generate_mock_items search_text per_page w.hour w.rng) "mock" true (some reason)

/-- Methods 2 and 3 of `fetch_vinted_items` plus the mock fallback, entered
when `__NEXT_DATA__` yields nothing: first preload pattern with a non-empty
decoded list wins (line 144), then non-empty scraped items (line 184), then
the mock fallback with a blocked reason (line 188). -/
def fetchAfterNextData (w : FetchWorld) (search_text : String) (per_page : Nat) :
    FetchOutcome :=
  match (preloadResult w.preload1 per_page).orElse
      (fun _ => (preloadResult w.preload2 per_page).orElse
        (fun _ => preloadResult w.preload3 per_page)) with
  | some r => r
  | _ =>
      if !w.soupItems.isEmpty then .tagged (w.soupItems.take per_page) "live" false Option.none
      else mockResult w search_text per_page
        "Could not extract items - Vinted structure changed or blocked"

/-- Embedding of `fetch_vinted_items`.  Control flow of the source, line by
line: request failure is absorbed into a mock result (line 193); a non-200
status returns a bare empty list (line 105); a non-empty `__NEXT_DATA__` item
list is returned bare and truncated (line 121); the remaining methods are in
`fetchAfterNextData`. -/
def fetch_vinted_items (w : FetchWorld) (search_text : String) (per_page : Nat) :
    FetchOutcome :=
  match w.requestError with
  | some e => mockResult w search_text per_page ("Request failed: " ++ e)
  | _ =>
    if w.status ≠ 200 then .bare []
    else
      match w.nextData with
      | .found l =>
          if !l.isEmpty then .bare (l.take per_page)
          else fetchAfterNextData w search_text per_page
      | _ => fetchAfterNextData w search_text per_page

/-- A fixed random oracle, for concrete instantiations of the fetch world. -/
def constRng : MockRng := ⟨fun _ => 0, fun _ => 0, fun _ => 0, fun _ => 0⟩

/-- The `id` field of a raw item dictionary. -/
def idOf : PyVal → PyVal
  | .dict fs => dictGet fs "id" .none
  | _ => .none

/-- The eight hex characters determined by one little-endian 32-bit word; the
normal form of a truncated `hexdigest()[:8]`. -/
def hex8 (A : Nat) : String :=
  String.mk
    [hexDigit (A % 256 / 16 % 16), hexDigit (A % 256 % 16),
     hexDigit (A / 256 % 256 / 16 % 16), hexDigit (A / 256 % 256 % 16),
     hexDigit (A / 65536 % 256 / 16 % 16), hexDigit (A / 65536 % 256 % 16),
     hexDigit (A / 16777216 % 256 / 16 % 16), hexDigit (A / 16777216 % 256 % 16)]

/-- The first MD5 state word of the hash input of mock item 0 for search text
`"a"` at a given clock hour; the mock identifier is a function of this word. -/
def hourWord (h : Nat) : Nat := (md5State (strBytes (mockHashInput "a" 0 h))).1

/-- `hourWord` reduced into the finite type of 32-bit words. -/
def hourFin (h : Nat) : Fin 4294967296 :=
  ⟨hourWord h % 4294967296, Nat.mod_lt _ (by norm_num)⟩

/-! ### Dedup & Ingest (`backend/vinted_routes.py` lines 144-186) -/

/-- A stored item, reduced to the fields the dedupe check and the stats
computation read: the owning query, the external item id, and the price. -/
structure StoredItem where
  query_id : String
  item_id : String
  price : PyVal

/-- The Mongo existence check
`db.vinted_items.find_one({"query_id": ..., "item_id": ...})` is not `None`. -/
def existsPair (store : List StoredItem) (qid iid : String) : Bool :=
  store.any fun st => st.query_id == qid && st.item_id == iid

/-- The ingest loop of `fetch_for_query`: parse each raw item, count it as
existing when its `(query_id, item_id)` pair is already stored, otherwise
append it and count it as new.  The accumulator is
`(store, items_new, items_existing)`. -/
def ingestLoop (qid : String) (acc : List StoredItem × Nat × Nat) :
    List (List (String × PyVal)) → Except String (List StoredItem × Nat × Nat)
  | [] => .ok acc
  | raw :: rest =>
      match parse_item raw with
      | .error e => .error e
      | .ok p =>
          if existsPair acc.1 qid p.item_id then
            ingestLoop qid (acc.1, acc.2.1, acc.2.2 + 1) rest
          else
            ingestLoop qid (acc.1 ++ [⟨qid, p.item_id, p.price⟩], acc.2.1 + 1, acc.2.2) rest

/-- Embedding of the dedupe loop of `fetch_for_query`
(`backend/vinted_routes.py` lines 144-175): sequential check-then-insert over
the fetched raw items.  An error is a raw item on which `parse_item` raises
(the endpoint then fails with an internal error and returns no `FetchResult`). -/
def dedupIngest (store : List StoredItem) (qid : String)
    (raws : List (List (String × PyVal))) : Except String (List StoredItem × Nat × Nat) :=
  ingestLoop qid (store, 0, 0) raws

/-- The counts of the `FetchResult` the endpoint builds on success
(`backend/vinted_routes.py` lines 178-186):
`(items_fetched, items_new, items_existing)`. -/
def fetchResultCounts (store : List StoredItem) (qid : String)
    (raws : List (List (String × PyVal))) : Except String (Nat × Nat × Nat) :=
  match dedupIngest store qid raws with
  | .ok r => .ok (raws.length, r.2.1, r.2.2)
  | .error e => .error e

/-- The dedupe invariant: `(query_id, item_id)` pairs are unique in the store. -/
def PairsUnique (store : List StoredItem) : Prop :=
  List.Pairwise (fun a b => ¬(a.query_id = b.query_id ∧ a.item_id = b.item_id)) store

/-! ### Stats Aggregator (`backend/vinted_routes.py` lines 189-247) -/

/-- Insertion into a sorted list; `sorted` as CPython `statistics.median`
performs it (any correct comparison sort agrees on rational values). -/
def insertSorted (x : ℚ) : List ℚ → List ℚ
  | [] => [x]
  | y :: ys => if x ≤ y then x :: y :: ys else y :: insertSorted x ys

/-- Sorting, modelling the `sorted(data)` call inside `statistics.median`. -/
def sortQ (l : List ℚ) : List ℚ := l.foldr insertSorted []

/-- Embedding of CPython `statistics.median`: sort, take the middle element for
odd length, the average of the two middle elements for even length.  (The
Python function raises on an empty list; the route only calls it on non-empty
data, and this model returns 0 there.) -/
def pyMedian (l : List ℚ) : ℚ :=
  let s := sortQ l
  let n := s.length
  if n % 2 = 1 then s.getD (n / 2) 0
  else (s.getD (n / 2 - 1) 0 + s.getD (n / 2) 0) / 2

/-- Round-half-even to an integer, the tie rule of Python `round`. -/
def roundHalfEven (q : ℚ) : ℤ :=
  if q - ⌊q⌋ = 1 / 2 then (if 2 ∣ ⌊q⌋ then ⌊q⌋ else ⌊q⌋ + 1) else round q

/-- Python `round(x, 2)` on the exact-rational model of floats. -/
def round2 (q : ℚ) : ℚ := (roundHalfEven (q * 100) : ℚ) / 100

/-- Embedding of the stats computation of `compute_stats`
(`backend/vinted_routes.py` lines 211-219): filter the stored prices to those
strictly positive, then `(avg_price, median_price, item_count)`, with `None`
averages when nothing qualifies. -/
def compute_stats (prices : List ℚ) : Option ℚ × Option ℚ × Nat :=
  let qual := prices.filter fun p => 0 < p
  if qual.isEmpty then (Option.none, Option.none, 0)
  else
    (some (round2 (qual.sum / (qual.length : ℚ))),
     some (round2 (pyMedian qual)),
     qual.length)

/-- A daily statistics row, reduced to the fields the upsert keys and writes. -/
structure DailyStat where
  query_id : String
  day : String
  avg_price : Option ℚ
  median_price : Option ℚ
  item_count : Nat

/-- Models the Mongo
`update_one({"query_id": ..., "day": ...}, {"$set": stats_doc}, upsert=True)`:
replace the row matching the key if one exists, else append the new row. -/
def upsertStat (store : List DailyStat) (st : DailyStat) : List DailyStat :=
  if store.any (fun r => r.query_id == st.query_id && r.day == st.day) then
    store.map fun r => if r.query_id == st.query_id && r.day == st.day then st else r
  else store ++ [st]

/-- The row `compute_stats` writes for a query and day, and the store after the
upsert (`backend/vinted_routes.py` lines 222-237). -/
def computeStatsRun (store : List DailyStat) (qid day : String) (prices : List ℚ) :
    DailyStat × List DailyStat :=
  let r := compute_stats prices
  let row : DailyStat := ⟨qid, day, r.1, r.2.1, r.2.2⟩
  (row, upsertStat store row)

/-- The median as the specification words it: the standard median of a list,
average of the two middle values for even counts, written against Mathlib
insertion sort rather than the transliterated CPython code. -/
def specMedian (l : List ℚ) : ℚ :=
  let s := List.insertionSort (· ≤ ·) l
  if l.length % 2 = 1 then s.getD (l.length / 2) 0
  else (s.getD (l.length / 2 - 1) 0 + s.getD (l.length / 2) 0) / 2

/-! ## Theorems -/

/-- `existsPair` is monotone under extending the store on the right. -/
theorem existsPair_append_of (s t : List StoredItem) (qid iid : String)
    (h : existsPair s qid iid = true) : existsPair (s ++ t) qid iid = true := by
  simp only [existsPair, List.any_append, Bool.or_eq_true]
  exact Or.inl h

/-- The pair just inserted is found by the existence check. -/
theorem existsPair_inserted (s : List StoredItem) (qid iid : String) (pr : PyVal) :
    existsPair (s ++ [⟨qid, iid, pr⟩]) qid iid = true := by
  simp [existsPair, List.any_append]

/-- Structure of a successful ingest fold: the store only grows, new and
existing counts sum to the number of processed raw items, every processed raw
item parses and its pair is present in the final store, and pair-uniqueness is
preserved (insertion happens only after a failed existence check). -/
theorem ingest_fold_spec (qid : String) (raws : List (List (String × PyVal))) :
    ∀ (store : List StoredItem) (n e : Nat) (out : List StoredItem × Nat × Nat),
      ingestLoop qid (store, n, e) raws = .ok out →
      (∃ extra, out.1 = store ++ extra) ∧
      out.2.1 + out.2.2 = n + e + raws.length ∧
      (∀ raw ∈ raws, ∃ p, parse_item raw = .ok p ∧ existsPair out.1 qid p.item_id = true) ∧
      (PairsUnique store → PairsUnique out.1) := by
  induction raws with
  | nil =>
      intro store n e out h
      simp only [ingestLoop] at h
      cases h
      exact ⟨⟨[], by simp⟩, by simp, by simp, fun hu => hu⟩
  | cons raw tail ih =>
      intro store n e out h
      cases hp : parse_item raw with
      | error e0 => simp [ingestLoop, hp] at h
      | ok p =>
          by_cases hex : existsPair store qid p.item_id = true
          · have hrec : ingestLoop qid (store, n, e + 1) tail = .ok out := by
              simpa [ingestLoop, hp, hex] using h
            have h2 := ih store n (e + 1) out hrec
            obtain ⟨⟨extra, hex1⟩, hcnt, hall, huniq⟩ := h2
            refine ⟨⟨extra, hex1⟩, by simp only [List.length_cons]; omega, ?_, huniq⟩
            intro r hr
            rcases List.mem_cons.mp hr with rfl | hr
            · exact ⟨p, hp, hex1 ▸ existsPair_append_of store extra qid p.item_id hex⟩
            · exact hall r hr
          · have hrec : ingestLoop qid
                (store ++ [⟨qid, p.item_id, p.price⟩], n + 1, e) tail = .ok out := by
              simpa [ingestLoop, hp, hex] using h
            have h2 := ih (store ++ [⟨qid, p.item_id, p.price⟩]) (n + 1) e out hrec
            obtain ⟨⟨extra, hex1⟩, hcnt, hall, huniq⟩ := h2
            refine ⟨⟨⟨qid, p.item_id, p.price⟩ :: extra, by simpa using hex1⟩,
              by simp only [List.length_cons]; omega, ?_, ?_⟩
            · intro r hr
              rcases List.mem_cons.mp hr with rfl | hr
              · exact ⟨p, hp, hex1 ▸ existsPair_append_of _ extra qid p.item_id
                  (existsPair_inserted store qid p.item_id p.price)⟩
              · exact hall r hr
            · intro hu
              apply huniq
              rw [PairsUnique, List.pairwise_append]
              refine ⟨hu, by simp, ?_⟩
              intro a ha b hb
              simp only [List.mem_singleton] at hb
              subst hb
              intro ⟨hq, hi⟩
              apply hex
              simp only [existsPair, List.any_eq_true]
              exact ⟨a, ha, by simp [hq, hi]⟩

/-- An ingest fold over raw items that all already exist in the store leaves
the store unchanged, adds nothing, and counts every item as existing. -/
theorem ingest_fold_allExisting (qid : String) (raws : List (List (String × PyVal))) :
    ∀ (store : List StoredItem) (n e : Nat),
      (∀ raw ∈ raws, ∃ p, parse_item raw = .ok p ∧ existsPair store qid p.item_id = true) →
      ingestLoop qid (store, n, e) raws = .ok (store, n, e + raws.length) := by
  induction raws with
  | nil => intro store n e _; simp [ingestLoop]
  | cons raw tail ih =>
      intro store n e hall
      obtain ⟨p, hp, hex⟩ := hall raw (by simp)
      have htail := ih store n (e + 1) (fun r hr => hall r (by simp [hr]))
      rw [show e + (raw :: tail).length = (e + 1) + tail.length by simp; omega]
      simpa [ingestLoop, hp, hex] using htail

/-- C10: whenever the fetch-and-ingest endpoint returns a successful
`FetchResult`, its counts satisfy
`items_fetched = items_new + items_existing`: the ingest loop classifies every
fetched raw item as exactly one of existing or new. -/
theorem C10_fetched_eq_new_add_existing (store : List StoredItem) (qid : String)
    (raws : List (List (String × PyVal))) (out : Nat × Nat × Nat)
    (h : fetchResultCounts store qid raws = .ok out) :
    out.1 = out.2.1 + out.2.2 := by
  rw [fetchResultCounts] at h
  cases hi : dedupIngest store qid raws with
  | error e0 => rw [hi] at h; cases h
  | ok r =>
      rw [hi] at h
      cases h
      have := (ingest_fold_spec qid raws store 0 0 r hi).2.1
      simpa using this.symm

/-- C10 witness: a concrete successful run with one new item. -/
theorem C10_witness :
    fetchResultCounts [] "q" [[("id", PyVal.str "7")]] = .ok (1, 1, 0) ∧ (1 : Nat) = 1 + 0 :=
  ⟨rfl, C10_fetched_eq_new_add_existing [] "q" [[("id", PyVal.str "7")]] (1, 1, 0) rfl⟩

/-- C3 counterexample: with a raw batch containing the same external id twice,
run from an empty store, the first run returns `items_new = 1` but the second
run returns `items_existing = 2 ≠ 1`; the claim equates them for every batch. -/
theorem C3_counterexample :
    dedupIngest [] "q" [[("id", PyVal.str "7")], [("id", PyVal.str "7")]] =
      .ok ([⟨"q", "7", PyVal.int 0⟩], 1, 1) ∧
    dedupIngest [⟨"q", "7", PyVal.int 0⟩] "q"
        [[("id", PyVal.str "7")], [("id", PyVal.str "7")]] =
      .ok ([⟨"q", "7", PyVal.int 0⟩], 0, 2) ∧
    (2 : Nat) ≠ 1 :=
  ⟨rfl, rfl, by decide⟩

/-- C3 amended: a second run of Dedup & Ingest with the same raw items always
returns `items_new = 0` with an unchanged store, its `items_existing` is the
whole batch size `items_new + items_existing` of the first run (so it equals
the first run's `items_new` exactly when the first run found nothing
pre-existing), and `(query_id, item_id)` uniqueness of the store is preserved. -/
theorem C3_amended_idempotence (store s1 : List StoredItem) (qid : String)
    (raws : List (List (String × PyVal))) (n1 e1 : Nat)
    (h : dedupIngest store qid raws = .ok (s1, n1, e1)) :
    dedupIngest s1 qid raws = .ok (s1, 0, n1 + e1) ∧
    (PairsUnique store → PairsUnique s1) ∧
    (e1 = 0 → n1 + e1 = n1) := by
  have hspec := ingest_fold_spec qid raws store 0 0 (s1, n1, e1) h
  obtain ⟨⟨extra, hex⟩, hcnt, hall, huniq⟩ := hspec
  have hlen : n1 + e1 = raws.length := by simpa using hcnt
  refine ⟨?_, huniq, fun he => by omega⟩
  have := ingest_fold_allExisting qid raws s1 0 0 hall
  rw [dedupIngest, this, hlen]
  simp

/-- C3 witness: a batch of distinct, fresh ids behaves as the amended claim
states, with second-run `items_existing` equal to first-run `items_new`. -/
theorem C3_witness :
    dedupIngest [⟨"q", "7", PyVal.int 0⟩] "q" [[("id", PyVal.str "7")]] =
      .ok ([⟨"q", "7", PyVal.int 0⟩], 0, 1 + 0) ∧
    (PairsUnique [] → PairsUnique [⟨"q", "7", PyVal.int 0⟩]) ∧
    ((0 : Nat) = 0 → 1 + 0 = 1) :=
  C3_amended_idempotence [] [⟨"q", "7", PyVal.int 0⟩] "q" [[("id", PyVal.str "7")]] 1 0 rfl

/-- The transliterated insertion step agrees with Mathlib insertion. -/
theorem insertSorted_eq_orderedInsert (x : ℚ) (l : List ℚ) :
    insertSorted x l = List.orderedInsert (· ≤ ·) x l := by
  induction l with
  | nil => rfl
  | cons y ys ih => by_cases h : x ≤ y <;> simp [insertSorted, List.orderedInsert, h, ih]

/-- The transliterated sort agrees with Mathlib insertion sort. -/
theorem sortQ_eq_insertionSort (l : List ℚ) : sortQ l = List.insertionSort (· ≤ ·) l := by
  induction l with
  | nil => rfl
  | cons y ys ih => simp [sortQ, List.insertionSort, insertSorted_eq_orderedInsert, ← ih, sortQ]

/-- The CPython median transliteration computes the specification median. -/
theorem pyMedian_eq_specMedian (l : List ℚ) : pyMedian l = specMedian l := by
  have hlen : (List.insertionSort (· ≤ ·) l).length = l.length :=
    (List.perm_insertionSort (· ≤ ·) l).length_eq
  rw [pyMedian, specMedian, sortQ_eq_insertionSort, hlen]

/-- The upserted row is in the store after the upsert. -/
theorem upsertStat_mem (store : List DailyStat) (row : DailyStat) :
    row ∈ upsertStat store row := by
  rw [upsertStat]
  split
  · next hany =>
      obtain ⟨r, hr, hcond⟩ := List.any_eq_true.mp hany
      exact List.mem_map.mpr ⟨r, hr, by simp [hcond]⟩
  · exact List.mem_append_right _ (by simp)

/-- C4: the stats computation filters to strictly positive prices, reports
their count as `item_count`, computes mean and standard median (specification
median) rounded to two decimals when something qualifies, reports null
averages with count 0 when nothing qualifies, always writes the daily row,
and on stored prices `[10, 20, 30, 0]` yields
`avg_price = 20`, `median_price = 20`, `item_count = 3`. -/
theorem C4_stats (prices : List ℚ) (store : List DailyStat) (qid day : String) :
    (compute_stats prices).2.2 = (prices.filter fun p => 0 < p).length ∧
    ((prices.filter fun p => 0 < p) = [] →
      compute_stats prices = (Option.none, Option.none, 0)) ∧
    ((prices.filter fun p => 0 < p) ≠ [] →
      (compute_stats prices).1 = some (round2 ((prices.filter fun p => 0 < p).sum /
          (((prices.filter fun p => 0 < p).length : ℚ)))) ∧
      (compute_stats prices).2.1 =
        some (round2 (specMedian (prices.filter fun p => 0 < p)))) ∧
    (computeStatsRun store qid day prices).1 ∈ (computeStatsRun store qid day prices).2 ∧
    compute_stats [10, 20, 30, 0] = (some 20, some 20, 3) := by
  refine ⟨?_, ?_, ?_, upsertStat_mem store _, by
    norm_num [compute_stats, pyMedian, sortQ, insertSorted, round2, roundHalfEven,
      round_eq, List.getD]⟩
  · rw [compute_stats]
    split
    · next hemp => simp [List.isEmpty_iff.mp hemp]
    · rfl
  · intro hemp
    rw [compute_stats]
    simp [hemp]
  · intro hne
    rw [compute_stats]
    have : (prices.filter fun p => 0 < p).isEmpty = false := by
      simpa [List.isEmpty_iff] using hne
    simp [this, pyMedian_eq_specMedian]

/-- C4 witness: the conditional conjuncts of `C4_stats` discharged on the
concrete spec example. -/
theorem C4_witness :
    (compute_stats [10, 20, 30, 0]).1 =
      some (round2 (([10, 20, 30, 0].filter fun p => (0 : ℚ) < p).sum /
        ((([10, 20, 30, 0].filter fun p => (0 : ℚ) < p).length : ℚ)))) ∧
    (compute_stats [10, 20, 30, 0]).2.1 =
      some (round2 (specMedian ([10, 20, 30, 0].filter fun p => (0 : ℚ) < p))) :=
  (C4_stats [10, 20, 30, 0] [] "q" "2026-02-03").2.2.1 (by norm_num; simp)

/-- Characters surviving the whitespace strip come from the original list. -/
theorem stripChars_subset (l : List Char) : ∀ c ∈ stripChars l, c ∈ l := by
  intro c hc
  rw [stripChars, List.mem_reverse] at hc
  have h1 := (List.dropWhile_sublist isPySpace).subset hc
  rw [List.mem_reverse] at h1
  exact (List.dropWhile_sublist isPySpace).subset h1

/-- The head surviving a `dropWhile` fails the dropped predicate. -/
theorem dropWhile_cons_head {α : Type} (p : α → Bool) (l : List α) (c : α)
    (rest : List α) (h : l.dropWhile p = c :: rest) : p c = false := by
  induction l with
  | nil => simp at h
  | cons x xs ih =>
      rw [List.dropWhile_cons] at h
      by_cases hx : p x = true
      · rw [if_pos hx] at h
        exact ih h
      · rw [if_neg hx] at h
        cases h
        simpa using hx

/-- Every character of a `firstNumRun` match is in the price class and comes
from the searched string. -/
theorem firstNumRun_chars (s : String) (run : List Char)
    (h : firstNumRun s = some run) : ∀ c ∈ run, isPriceChar c = true ∧ c ∈ s.data := by
  rw [firstNumRun] at h
  rcases hd : s.data.dropWhile (fun c => !isPriceChar c) with _ | ⟨c0, rest⟩ <;>
    rw [hd] at h
  · cases h
  · cases h
    intro c hc
    have hmem : c ∈ c0 :: rest := by
      rcases List.mem_cons.mp hc with rfl | hc2
      · exact List.mem_cons_self _ _
      · exact List.mem_cons_of_mem _ ((List.takeWhile_sublist isPriceChar).subset hc2)
    have hsub : c ∈ s.data := (List.dropWhile_sublist _).subset (hd ▸ hmem)
    refine ⟨?_, hsub⟩
    rcases List.mem_cons.mp hc with rfl | hc2
    · have := dropWhile_cons_head (fun c => !isPriceChar c) s.data c rest hd
      simpa using this
    · exact List.mem_takeWhile_imp hc2

/-- `commaToDot` output contains no comma. -/
theorem commaToDot_no_comma (s : String) : ∀ c ∈ (commaToDot s).data, c ≠ ',' := by
  intro c hc
  rw [commaToDot] at hc
  obtain ⟨x, _, hx⟩ := List.mem_map.mp hc
  by_cases hxc : x = ','
  · rw [if_pos hxc] at hx
    rw [← hx]
    decide
  · rw [if_neg hxc] at hx
    rw [← hx]
    exact hxc

/-- The unsigned float-literal parser only returns non-negative values. -/
theorem parseUnsigned_nonneg (cs : List Char) (q : ℚ)
    (h : parseUnsigned cs = some q) : 0 ≤ q := by
  have hmant : (0 : ℚ) ≤ (digitsVal (cs.takeWhile Char.isDigit) : ℚ) +
      (digitsVal (match cs.dropWhile Char.isDigit with
        | '.' :: r => (r.takeWhile Char.isDigit, r.dropWhile Char.isDigit)
        | _ => ([], cs.dropWhile Char.isDigit)).1 : ℚ) /
      (10 : ℚ) ^ (match cs.dropWhile Char.isDigit with
        | '.' :: r => (r.takeWhile Char.isDigit, r.dropWhile Char.isDigit)
        | _ => ([], cs.dropWhile Char.isDigit)).1.length := by
    have h1 : (0 : ℚ) ≤ (digitsVal (cs.takeWhile Char.isDigit) : ℚ) := Nat.cast_nonneg _
    have h2 : (0 : ℚ) ≤ (10 : ℚ) ^ (match cs.dropWhile Char.isDigit with
        | '.' :: r => (r.takeWhile Char.isDigit, r.dropWhile Char.isDigit)
        | _ => ([], cs.dropWhile Char.isDigit)).1.length := by positivity
    exact add_nonneg h1 (div_nonneg (Nat.cast_nonneg _) h2)
  simp only [parseUnsigned] at h
  split at h
  · cases h
  · split at h
    · cases h
      exact hmant
    · split at h
      · split at h
        · cases h
          refine mul_nonneg hmant (le_of_lt (zpow_pos (by norm_num) _))
        · cases h
      · cases h

/-- On character lists whose entries are digits or dots (as every price-regex
match fed to `float` is), the float parser only returns non-negative values. -/
theorem parseFloatChars_nonneg (l : List Char)
    (hl : ∀ c ∈ l, c.isDigit = true ∨ c = '.') (q : ℚ)
    (h : parseFloatChars l = some q) : 0 ≤ q := by
  rw [parseFloatChars] at h
  split at h
  · next rest heq =>
      have hm : '-' ∈ stripChars l := by rw [heq]; exact List.mem_cons_self _ _
      have := hl '-' (stripChars_subset l '-' hm)
      simp at this
  · next rest _ => exact parseUnsigned_nonneg rest q h
  · exact parseUnsigned_nonneg _ q h

/-- A successful `parse_item` determines a successful `parse_price` on the
price field, whose first component is the parsed price. -/
theorem parse_item_price (raw : List (String × PyVal)) (p : ParsedItem)
    (h : parse_item raw = .ok p) :
    ∃ c, parse_price (dictGet raw "price" (.int 0)) = .ok (p.price, c) := by
  rcases hpp : parse_price (dictGet raw "price" (.int 0)) with e | pc
  · rw [parse_item, hpp] at h; cases h
  · rw [parse_item, hpp] at h
    cases h
    exact ⟨pc.2, congrArg Except.ok Prod.mk.eta.symm⟩

/-- A falsy price value parses to a zero price (the integer 0 on the fall
through branches, the float 0 on the empty-dict branch) with currency EUR. -/
theorem parse_price_falsy (v : PyVal) (hf : truthy v = false) :
    parse_price v = .ok (.int 0, .str "EUR") ∨
    parse_price v = .ok (.float 0, .str "EUR") := by
  cases v with
  | none => left; rfl
  | bool b =>
      cases b with
      | false => left; rfl
      | true => simp [truthy] at hf
  | int n =>
      have hn : n = 0 := by simpa [truthy] using hf
      subst hn; left; rfl
  | float q =>
      have hq : q = 0 := by simpa [truthy] using hf
      subst hq; left; rfl
  | str s =>
      have hs : s = "" := by simpa [truthy] using hf
      subst hs; left; rfl
  | list xs =>
      have hx : xs = [] := by simpa [truthy, List.isEmpty_iff] using hf
      subst hx; left; rfl
  | dict fs =>
      have hx : fs = [] := by simpa [truthy, List.isEmpty_iff] using hf
      subst hx; right; rfl

/-- A string price parses to the integer 0 (no digits present) or to the
non-negative value of the first digits-and-dots run. -/
theorem parse_price_str_nonneg (s : String) (pr cur : PyVal)
    (h : parse_price (.str s) = .ok (pr, cur)) : 0 ≤ pyNumVal pr := by
  simp only [parse_price] at h
  rcases hrun : firstNumRun (commaToDot s) with _ | run <;> simp only [hrun] at h
  · cases h; norm_num [pyNumVal]
  · rcases hq : parseFloatChars run with _ | q <;> simp only [hq] at h
    · cases h
    · cases h
      have hchars : ∀ c ∈ run, c.isDigit = true ∨ c = '.' := by
        intro c hc
        obtain ⟨hpc, hmem⟩ := firstNumRun_chars (commaToDot s) run hrun c hc
        have hnc := commaToDot_no_comma s c hmem
        rcases (by simpa [isPriceChar, Bool.or_eq_true] using hpc :
            (c.isDigit = true ∨ c = ',') ∨ c = '.') with (hd | hcm) | hdot
        · exact Or.inl hd
        · exact absurd hcm hnc
        · exact Or.inr hdot
      simpa [pyNumVal] using parseFloatChars_nonneg run hchars q hq

/-- C5 counterexample: `parse_item` is not total — a structured price whose
amount is not numeric makes the Python `float(...)` call raise, so the claim
that every raw dictionary yields a `NormalizedItem` fails at this input. -/
theorem C5_counterexample :
    parse_item [("price", PyVal.dict [("amount", PyVal.str "abc")])] =
      .error "ValueError: float() on price amount" := rfl

/-- C5 amended: `parse_item` succeeds exactly when the price conversion
succeeds — no field other than `price` can make it fail — and on an empty raw
dictionary every absent field defaults to the empty string, zero price,
currency EUR, no-mock marker. -/
theorem C5_amended_total_except_price :
    (∀ raw : List (String × PyVal),
      (parse_item raw).isOk = (parse_price (dictGet raw "price" (.int 0))).isOk) ∧
    parse_item [] = .ok
      ⟨"", .str "", .int 0, .str "EUR", .str "", .str "", .str "", .str "",
        .bool false, .dict []⟩ := by
  constructor
  · intro raw
    rcases hpp : parse_price (dictGet raw "price" (.int 0)) with e | pc <;>
      simp [parse_item, hpp, Except.isOk, Except.toBool]
  · rfl

/-- C6 counterexample: the claim says any price of another shape yields
price 0, but a truthy non-numeric price (here a non-empty list) makes the
Python `float(...)` call raise instead. -/
theorem C6_counterexample :
    parse_item [("price", PyVal.list [PyVal.int 1])] =
      .error "TypeError: float() on price value" := rfl

/-- C6 amended: a structured amount+currency pair is used directly
(`{"amount": "15.5", "currency_code": "USD"}` gives price 15.5, currency USD);
a string price yields the first numeric run after comma normalization with
currency EUR (`"15,00 €"` gives 15.0, EUR); a bare number is used as-is; a
falsy price of any other shape yields value 0; a truthy non-numeric price
raises (counterexample above). -/
theorem C6_amended_price_cases (raw : List (String × PyVal)) :
    (priceOf (parse_item
        [("price", PyVal.dict [("amount", PyVal.str "15.5"), ("currency_code", PyVal.str "USD")])]) =
          some (.float 15.5) ∧
      currencyOf (parse_item
        [("price", PyVal.dict [("amount", PyVal.str "15.5"), ("currency_code", PyVal.str "USD")])]) =
          some (.str "USD")) ∧
    (priceOf (parse_item [("price", PyVal.str "15,00 €")]) = some (.float 15) ∧
      currencyOf (parse_item [("price", PyVal.str "15,00 €")]) = some (.str "EUR")) ∧
    (∀ n : ℤ, dictGet raw "price" (.int 0) = .int n → n ≠ 0 →
      priceOf (parse_item raw) = some (.float (n : ℚ))) ∧
    (∀ q : ℚ, dictGet raw "price" (.int 0) = .float q → q ≠ 0 →
      priceOf (parse_item raw) = some (.float q)) ∧
    (∀ v : PyVal, dictGet raw "price" (.int 0) = v → truthy v = false →
      (priceOf (parse_item raw)).map pyNumVal = some 0) := by
  refine ⟨⟨by with_unfolding_all rfl, by with_unfolding_all rfl⟩,
    ⟨by with_unfolding_all rfl, by with_unfolding_all rfl⟩, ?_, ?_, ?_⟩
  · intro n hv hn
    have hp : parse_price (dictGet raw "price" (.int 0)) = .ok (.float (n : ℚ), .str "EUR") := by
      rw [hv, parse_price.eq_def]
      simp [truthy, pyFloat, hn]
    simp [parse_item, hp, priceOf]
  · intro q hv hq
    have hp : parse_price (dictGet raw "price" (.int 0)) = .ok (.float q, .str "EUR") := by
      rw [hv, parse_price.eq_def]
      simp [truthy, pyFloat, hq]
    simp [parse_item, hp, priceOf]
  · intro v hv hf
    rcases parse_price_falsy v hf with hp | hp <;>
      · rw [← hv] at hp
        simp [parse_item, hp, priceOf, pyNumVal]

/-- C6 witness: the bare-number case applied at a concrete raw item. -/
theorem C6_witness :
    priceOf (parse_item [("price", PyVal.int 3)]) = some (.float ((3 : ℤ) : ℚ)) :=
  (C6_amended_price_cases [("price", PyVal.int 3)]).2.2.1 3 rfl (by decide)

/-- C8 counterexample: normalization passes a negative structured or bare
price through unchanged, so the claimed invariant that the normalized price is
always non-negative fails at price `-3`. -/
theorem C8_counterexample :
    (priceOf (parse_item [("price", PyVal.int (-3))])).map pyNumVal = some (-3 : ℚ) ∧
    ¬ (0 : ℚ) ≤ (-3 : ℚ) :=
  ⟨by with_unfolding_all rfl, by norm_num⟩

/-- C8 amended: the normalized price is non-negative whenever the raw price is
a string or a falsy value (the string parser cannot produce a sign); numeric
prices pass through with their sign, so negative raw prices stay negative. -/
theorem C8_amended_nonneg (raw : List (String × PyVal)) (p : ParsedItem)
    (h : parse_item raw = .ok p) :
    ((∃ s, dictGet raw "price" (.int 0) = .str s) ∨
        truthy (dictGet raw "price" (.int 0)) = false →
      0 ≤ pyNumVal p.price) ∧
    (∀ q : ℚ, dictGet raw "price" (.int 0) = .float q → pyNumVal p.price = q) ∧
    (∀ n : ℤ, dictGet raw "price" (.int 0) = .int n → pyNumVal p.price = (n : ℚ)) := by
  obtain ⟨cur, hpp⟩ := parse_item_price raw p h
  refine ⟨?_, ?_, ?_⟩
  · rintro (⟨s, hv⟩ | hf)
    · rw [hv] at hpp
      exact parse_price_str_nonneg s p.price cur hpp
    · rcases parse_price_falsy _ hf with hp | hp <;>
        · rw [hp] at hpp
          simp only [Except.ok.injEq, Prod.mk.injEq] at hpp
          rw [← hpp.1]
          norm_num [pyNumVal]
  · intro q hv
    rw [hv, parse_price.eq_def] at hpp
    by_cases hq : q = 0
    · subst hq
      simp [truthy] at hpp
      rw [← hpp.1]
      norm_num [pyNumVal]
    · simp [truthy, pyFloat, hq] at hpp
      rw [← hpp.1]
      simp [pyNumVal]
  · intro n hv
    rw [hv, parse_price.eq_def] at hpp
    by_cases hn : n = 0
    · subst hn
      simp [truthy] at hpp
      rw [← hpp.1]
      norm_num [pyNumVal]
    · simp [truthy, pyFloat, hn] at hpp
      rw [← hpp.1]
      simp [pyNumVal]

/-- C8 witness: the string case applied at the concrete spec example. -/
theorem C8_witness :
    0 ≤ pyNumVal (ParsedItem.price
      ⟨"", .str "", .float 15, .str "EUR", .str "", .str "", .str "", .str "",
        .bool false, .dict [("price", PyVal.str "15,00 €")]⟩) :=
  (C8_amended_nonneg [("price", PyVal.str "15,00 €")] _ (by with_unfolding_all rfl)).1
    (Or.inl ⟨"15,00 €", rfl⟩)

/-- C1: evaluation at the failing input.  On HTTP 403 (any non-200 status)
`fetch_vinted_items` returns a bare empty list instead of the claimed mock
dict with `source = "mock"`, `is_mock = true` and a non-null `blocked_reason`;
the route layer then crashes subscripting the list, surfacing the live-fetch
failure as an error. -/
theorem C1_http403_returns_bare_empty :
    fetch_vinted_items
      ⟨Option.none, 403, .absent, .absent, .absent, .absent, [], 0, constRng⟩
      "shoes" 20 = .bare [] := rfl

/-- C2: evaluation at a failing input.  On an HTTP 200 page embedding a
`__NEXT_DATA__` blob with a non-empty item list, `fetch_vinted_items` returns
the bare truncated list, not the claimed
`{items, source, is_mock, blocked_reason}` dictionary (and the 403 path of C1
returns a bare list too). -/
theorem C2_nextdata_returns_bare_list :
    fetch_vinted_items
      ⟨Option.none, 200, .found [PyVal.dict [("id", PyVal.str "1")]],
        .absent, .absent, .absent, [], 0, constRng⟩ "x" 20 =
      .bare [PyVal.dict [("id", PyVal.str "1")]] := rfl

/-- C7 counterexample: on HTTP 403 the pipeline attempts nothing further — no
session-primed retry, no scrape, no mock: even in a world where every
extraction would find items, the result is the bare empty list, refuting the
claimed retry-then-scrape escalation on 401/403. -/
theorem C7_counterexample :
    fetch_vinted_items
      ⟨Option.none, 403, .found [PyVal.dict [("id", PyVal.str "1")]],
        .found [PyVal.dict [("id", PyVal.str "1")]], .absent, .absent,
        [PyVal.dict [("id", PyVal.str "2")]], 0, constRng⟩ "x" 20 = .bare [] := rfl

/-- A non-yielding extraction outcome contributes no preload result. -/
theorem preloadResult_none (o : ExtractOutcome) (pp : Nat)
    (h : yields o = false) : preloadResult o pp = Option.none := by
  cases o with
  | found l =>
      have hl : l.isEmpty = true := by simpa [yields] using h
      simp [preloadResult, hl]
  | absent => rfl
  | decodeErr => rfl

/-- A yielding found outcome produces the tagged live preload result. -/
theorem preloadResult_some (l : List PyVal) (pp : Nat) (h : l ≠ []) :
    preloadResult (.found l) pp =
      some (.tagged (l.take pp) "live" false Option.none) := by
  have hl : l.isEmpty = false := by simpa [List.isEmpty_iff] using h
  simp [preloadResult, hl]

/-- C7 amended: the pipeline makes a single catalog-page request; there is no
session-primed retry and no page-size cap — any non-200 status (401/403
included) immediately yields a bare empty list.  On a 200 response it
attempts, in order, `__NEXT_DATA__` extraction (returned bare), the three
preload-state patterns, then scraped HTML items, each later stage only when
every earlier stage yielded no items, truncating to the requested page size;
when nothing yields, the mock fallback of the requested size is tagged with a
blocked reason. -/
theorem C7_amended_single_request_chain (w : FetchWorld) (s : String) (pp : Nat)
    (hreq : w.requestError = Option.none) :
    (w.status ≠ 200 → fetch_vinted_items w s pp = .bare []) ∧
    (w.status = 200 → ∀ l, w.nextData = .found l → l ≠ [] →
      fetch_vinted_items w s pp = .bare (l.take pp)) ∧
    (w.status = 200 → yields w.nextData = false →
      ∀ l, w.preload1 = .found l → l ≠ [] →
      fetch_vinted_items w s pp = .tagged (l.take pp) "live" false Option.none) ∧
    (w.status = 200 → yields w.nextData = false → yields w.preload1 = false →
      ∀ l, w.preload2 = .found l → l ≠ [] →
      fetch_vinted_items w s pp = .tagged (l.take pp) "live" false Option.none) ∧
    (w.status = 200 → yields w.nextData = false → yields w.preload1 = false →
      yields w.preload2 = false → ∀ l, w.preload3 = .found l → l ≠ [] →
      fetch_vinted_items w s pp = .tagged (l.take pp) "live" false Option.none) ∧
    (w.status = 200 → yields w.nextData = false → yields w.preload1 = false →
      yields w.preload2 = false → yields w.preload3 = false → w.soupItems ≠ [] →
      fetch_vinted_items w s pp =
        .tagged (w.soupItems.take pp) "live" false Option.none) ∧
    (w.status = 200 → yields w.nextData = false → yields w.preload1 = false →
      yields w.preload2 = false → yields w.preload3 = false → w.soupItems = [] →
      fetch_vinted_items w s pp =
        .tagged (generate_mock_items s pp w.hour w.rng) "mock" true
          (some "Could not extract items - Vinted structure changed or blocked") ∧
      (generate_mock_items s pp w.hour w.rng).length = pp) := by
  obtain ⟨re, st, nd, p1, p2, p3, sp, hr, rng⟩ := w
  cases hreq
  have hmain : ∀ (hst : st = 200) (hnd : yields nd = false),
      fetch_vinted_items ⟨Option.none, st, nd, p1, p2, p3, sp, hr, rng⟩ s pp =
      fetchAfterNextData ⟨Option.none, st, nd, p1, p2, p3, sp, hr, rng⟩ s pp := by
    intro hst hnd
    subst hst
    cases nd with
    | found l =>
        have hl : l.isEmpty = true := by simpa [yields] using hnd
        simp [fetch_vinted_items, hl]
    | absent => simp [fetch_vinted_items]
    | decodeErr => simp [fetch_vinted_items]
  refine ⟨?_, ?_, ?_, ?_, ?_, ?_, ?_⟩
  · intro hst
    dsimp only at hst
    simp [fetch_vinted_items, hst]
  · intro hst l hnd hl
    dsimp only at hst hnd
    subst hst
    subst hnd
    have hl2 : l.isEmpty = false := by simpa [List.isEmpty_iff] using hl
    simp [fetch_vinted_items, hl2]
  · intro hst hnd l hp1 hl
    dsimp only at hst hnd hp1
    subst hp1
    rw [hmain hst hnd]
    simp [fetchAfterNextData, preloadResult_some l pp hl, Option.orElse]
  · intro hst hnd hp1 l hp2 hl
    dsimp only at hst hnd hp1 hp2
    subst hp2
    rw [hmain hst hnd]
    simp [fetchAfterNextData, preloadResult_none p1 pp hp1,
      preloadResult_some l pp hl, Option.orElse]
  · intro hst hnd hp1 hp2 l hp3 hl
    dsimp only at hst hnd hp1 hp2 hp3
    subst hp3
    rw [hmain hst hnd]
    simp [fetchAfterNextData, preloadResult_none p1 pp hp1,
      preloadResult_none p2 pp hp2, preloadResult_some l pp hl, Option.orElse]
  · intro hst hnd hp1 hp2 hp3 hsoup
    dsimp only at hst hnd hp1 hp2 hp3 hsoup
    have hs2 : sp.isEmpty = false := by simpa [List.isEmpty_iff] using hsoup
    rw [hmain hst hnd]
    simp [fetchAfterNextData, preloadResult_none p1 pp hp1,
      preloadResult_none p2 pp hp2, preloadResult_none p3 pp hp3, Option.orElse, hs2]
  · intro hst hnd hp1 hp2 hp3 hsoup
    dsimp only at hst hnd hp1 hp2 hp3 hsoup
    subst hsoup
    constructor
    · rw [hmain hst hnd]
      simp [fetchAfterNextData, preloadResult_none p1 pp hp1,
        preloadResult_none p2 pp hp2, preloadResult_none p3 pp hp3, Option.orElse,
        mockResult]
    · simp [generate_mock_items]

/-- C7 witness: the scrape stage applied in a concrete world where the earlier
stages find nothing. -/
theorem C7_witness :
    fetch_vinted_items
      ⟨Option.none, 200, .absent, .absent, .absent, .absent,
        [PyVal.dict [("id", PyVal.str "2")]], 3, constRng⟩ "x" 5 =
      .tagged [PyVal.dict [("id", PyVal.str "2")]] "live" false Option.none := by
  have h := (C7_amended_single_request_chain
    ⟨Option.none, 200, .absent, .absent, .absent, .absent,
      [PyVal.dict [("id", PyVal.str "2")]], 3, constRng⟩ "x" 5 rfl).2.2.2.2.2.1
  exact h rfl rfl rfl rfl rfl (by simp)

/-- The digit-list value inverts the fuelled digit expansion. -/
theorem natDigitsF_val : ∀ (f n : Nat), n ≤ f → digitsLEVal (natDigitsF f n) = n := by
  intro f
  induction f with
  | zero =>
      intro n hn
      interval_cases n
      rfl
  | succ f ih =>
      intro n hn
      by_cases h0 : n = 0
      · subst h0; rfl
      · have hdiv : n / 10 ≤ f := by
          have := Nat.div_lt_self (Nat.pos_of_ne_zero h0) (by norm_num : (1 : Nat) < 10)
          omega
        simp only [natDigitsF, if_neg h0, digitsLEVal, List.foldr_cons]
        have := ih (n / 10) hdiv
        rw [digitsLEVal] at this
        rw [this]
        omega

/-- The digit-list value inverts the digit expansion. -/
theorem natDigits_val (n : Nat) : digitsLEVal (natDigits n) = n :=
  natDigitsF_val n n le_rfl

/-- Every produced digit is below 10. -/
theorem natDigitsF_lt10 : ∀ (f n d : Nat), d ∈ natDigitsF f n → d < 10 := by
  intro f
  induction f with
  | zero => intro n d hd; simp [natDigitsF] at hd
  | succ f ih =>
      intro n d hd
      by_cases h0 : n = 0
      · subst h0; simp [natDigitsF] at hd
      · rw [natDigitsF, if_neg h0] at hd
        rcases List.mem_cons.mp hd with rfl | hd2
        · exact Nat.mod_lt _ (by norm_num)
        · exact ih _ _ hd2

/-- Decimal digit characters distinguish digits. -/
theorem digitChar_inj : ∀ d1 < 10, ∀ d2 < 10,
    Char.ofNat (48 + d1) = Char.ofNat (48 + d2) → d1 = d2 := by decide

/-- Mapping bounded digits to their characters is injective. -/
theorem digitCharMap_inj : ∀ (l1 l2 : List Nat), (∀ d ∈ l1, d < 10) →
    (∀ d ∈ l2, d < 10) →
    l1.map (fun d => Char.ofNat (48 + d)) = l2.map (fun d => Char.ofNat (48 + d)) →
    l1 = l2 := by
  intro l1
  induction l1 with
  | nil =>
      intro l2 _ _ h
      cases l2 with
      | nil => rfl
      | cons d t => simp at h
  | cons d1 t1 ih =>
      intro l2 h1 h2 h
      cases l2 with
      | nil => simp at h
      | cons d2 t2 =>
          simp only [List.map_cons, List.cons.injEq] at h
          have hd := digitChar_inj d1 (h1 d1 (by simp)) d2 (h2 d2 (by simp)) h.1
          have ht := ih t2 (fun d hd2 => h1 d (by simp [hd2]))
            (fun d hd2 => h2 d (by simp [hd2])) h.2
          rw [hd, ht]

/-- The decimal representation of naturals is injective. -/
theorem natRepr_inj (a b : Nat) (h : natRepr a = natRepr b) : a = b := by
  by_cases ha : a = 0 <;> by_cases hb : b = 0
  · rw [ha, hb]
  · exfalso
    rw [natRepr, if_pos ha, natRepr, if_neg hb] at h
    have h2 : ['0'] = (natDigits b).reverse.map (fun d => Char.ofNat (48 + d)) :=
      congrArg String.data h
    have h3 : ([0] : List Nat) = (natDigits b).reverse := by
      refine digitCharMap_inj [0] (natDigits b).reverse (by norm_num) ?_ ?_
      · intro d hd
        exact natDigitsF_lt10 b b d (List.mem_reverse.mp hd)
      · simpa using h2
    have h4 : natDigits b = [0] := by
      have := congrArg List.reverse h3
      simpa using this.symm
    have h5 := natDigits_val b
    rw [h4] at h5
    simp [digitsLEVal] at h5
    exact hb h5.symm
  · exfalso
    rw [natRepr, if_neg ha, natRepr, if_pos hb] at h
    have h2 : (natDigits a).reverse.map (fun d => Char.ofNat (48 + d)) = ['0'] :=
      congrArg String.data h
    have h3 : (natDigits a).reverse = ([0] : List Nat) := by
      refine digitCharMap_inj (natDigits a).reverse [0] ?_ (by norm_num) ?_
      · intro d hd
        exact natDigitsF_lt10 a a d (List.mem_reverse.mp hd)
      · simpa using h2
    have h4 : natDigits a = [0] := by
      have := congrArg List.reverse h3
      simpa using this
    have h5 := natDigits_val a
    rw [h4] at h5
    simp [digitsLEVal] at h5
    exact ha h5.symm
  · rw [natRepr, if_neg ha, natRepr, if_neg hb] at h
    have h2 := congrArg String.data h
    have h3 : (natDigits a).reverse = (natDigits b).reverse := by
      refine digitCharMap_inj _ _ ?_ ?_ h2
      · intro d hd
        exact natDigitsF_lt10 a a d (List.mem_reverse.mp hd)
      · intro d hd
        exact natDigitsF_lt10 b b d (List.mem_reverse.mp hd)
    have h4 : natDigits a = natDigits b := List.reverse_injective h3
    have h5 := congrArg digitsLEVal h4
    rwa [natDigits_val, natDigits_val] at h5

/-- The mock hash input is injective in the clock hour. -/
theorem mockHashInput_inj_hour (s : String) (i h1 h2 : Nat)
    (h : mockHashInput s i h1 = mockHashInput s i h2) : h1 = h2 := by
  apply natRepr_inj
  have hd := congrArg String.data h
  simp only [mockHashInput, String.data_append, List.append_assoc] at hd
  have h5 := List.append_cancel_left hd
  have h6 := List.append_cancel_left h5
  have h7 := List.append_cancel_left h6
  have h8 := List.append_cancel_left h7
  have h9 := List.append_cancel_right h8
  have h10 : String.mk (natRepr h1).data = String.mk (natRepr h2).data := congrArg _ h9
  exact h10

/-- Each word of the MD5 block output fits in 32 bits. -/
theorem md5Block_fst_lt (st : Nat × Nat × Nat × Nat) (M : List Nat) :
    (md5Block st M).1 < 4294967296 := by
  rw [md5Block]
  exact Nat.mod_lt _ (by norm_num)

/-- The first word of the MD5 state fits in 32 bits. -/
theorem md5State_fst_lt (msg : List Nat) : (md5State msg).1 < 4294967296 := by
  rw [md5State]
  suffices hgen : ∀ (bs : List (List Nat)) (st : Nat × Nat × Nat × Nat),
      st.1 < 4294967296 →
      (bs.foldl (fun st blk => md5Block st (blockWords blk)) st).1 < 4294967296 by
    exact hgen _ md5Init (by norm_num [md5Init])
  intro bs
  induction bs with
  | nil => intro st h; exact h
  | cons b t ih =>
      intro st h
      simp only [List.foldl_cons]
      exact ih _ (md5Block_fst_lt st (blockWords b))

/-- The truncated mock identifier hash is a function of the first MD5 state
word alone (eight hex characters are two characters per little-endian byte of
that word). -/
theorem mockItemId_eq_hex8 (s : String) (i h : Nat) :
    mockItemId s i h = hex8 (md5State (strBytes (mockHashInput s i h))).1 := rfl

/-- C9 counterexample: identifiers are 8-hex-character truncations into a
finite set, so the map from clock hours to identifiers cannot be injective:
some two distinct hours yield identical mock identifier lists, refuting the
claim that generations in different hours always produce different
identifiers. -/
theorem C9_counterexample :
    ¬ (∀ h1 h2 : Nat, h1 ≠ h2 → mockIdList "a" 1 h1 ≠ mockIdList "a" 1 h2) := by
  intro hcl
  obtain ⟨x, y, hxy, hfe⟩ := Finite.exists_ne_map_eq_of_infinite hourFin
  apply hcl x y hxy
  have h1 : hourWord x % 4294967296 = hourWord y % 4294967296 := congrArg Fin.val hfe
  have hb1 : hourWord x < 4294967296 := md5State_fst_lt _
  have hb2 : hourWord y < 4294967296 := md5State_fst_lt _
  have hw : hourWord x = hourWord y := by
    rwa [Nat.mod_eq_of_lt hb1, Nat.mod_eq_of_lt hb2] at h1
  have hx : ∀ h : Nat, mockIdList "a" 1 h = ["mock_" ++ hex8 (hourWord h)] := by
    intro h
    rw [show mockIdList "a" 1 h = ["mock_" ++ mockItemId "a" 0 h] from rfl,
      mockItemId_eq_hex8]
    rfl
  rw [hx, hx, hw]

set_option maxRecDepth 10000 in
/-- C9 amended: within one clock hour the mock identifiers are identical at
every index (they depend only on search text, index and hour — not on the
random draws or the requested count); across two different hours the hashed
inputs differ at every index; and on the concrete instance (search `"x"`,
hours 0 and 1) the identifier lists indeed differ — but identifiers are
truncated hashes, so distinct hours do not always give distinct identifiers
(see the counterexample). -/
theorem C9_amended_mock_determinism :
    (∀ (s : String) (n1 n2 h i : Nat), i < n1 → i < n2 →
      (mockIdList s n1 h).getD i "" = (mockIdList s n2 h).getD i "") ∧
    (∀ (s : String) (n h : Nat) (rng : MockRng),
      (generate_mock_items s n h rng).map idOf = (mockIdList s n h).map PyVal.str) ∧
    (∀ (s : String) (i h1 h2 : Nat), h1 ≠ h2 →
      mockHashInput s i h1 ≠ mockHashInput s i h2) ∧
    mockIdList "x" 1 0 ≠ mockIdList "x" 1 1 := by
  refine ⟨?_, ?_, ?_, ?_⟩
  · intro s n1 n2 h i hi1 hi2
    simp [mockIdList, List.getD_eq_getElem?_getD, List.getElem?_map,
      List.getElem?_range, hi1, hi2]
  · intro s n h rng
    simp only [generate_mock_items, mockIdList, List.map_map]
    apply List.map_congr_left
    intro a _
    rfl
  · intro s i h1 h2 hne heq
    exact hne (mockHashInput_inj_hour s i h1 h2 heq)
  · decide

/-- C9 witness: index-wise identifier stability applied at concrete counts. -/
theorem C9_witness :
    (mockIdList "a" 1 0).getD 0 "" = (mockIdList "a" 2 0).getD 0 "" :=
  C9_amended_mock_determinism.1 "a" 1 2 0 0 (by decide) (by decide)

end Vinted
